import Mathlib

/-
Verification of the ball_sim tile-routing simulation engine.

Shallow embedding of the core simulation code:
  * src/app/src/tiles.rs   (Tile enum and its u8 encoding/decoding)
  * src/renderer/src/chunk.rs  (CHUNK_SIZE, Chunk storage with set_tile/get_tile)
  * src/app/src/sim.rs     (Simulation: chunk store, ball registry, sim_step,
                            and the full-update tick of four phases)

Modelling notes, faithful to the source:
  * Rust HashMaps are modelled as association lists with a first-match lookup;
    insertion replaces any existing entry for the key (prepending), removal
    drops every entry for the key.  HashSet is a list with membership test and
    idempotent insert.  Rust HashMap iteration order is unspecified; the model
    iterates in list order (all theorems below are either order-independent or
    evaluate concrete single-eligibility scenarios).
  * A Chunk flat `[u8; 32*32]` array is modelled as a function `Nat -> Nat`
    addressed by exactly the source index expression
    `pos[0] + (CHUNK_SIZE - pos[1] - 1) * CHUNK_SIZE`.
  * sim.rs names `Tile::Filter` and `Tile::Duplicate`, which tiles.rs no longer
    declares (the repository does not compile as given).  Under the u8 encoding
    those stale names are code 7 = FilterR and code 6 = DuplicateH, and the
    embedding reads them that way; the variants FilterU, FilterD, FilterL and
    DuplicateV are not named by any arm of the sim_step match and therefore fall
    to its `_ => false` arm.
  * The resolution `while let` loop of sim_step is modelled with explicit fuel
    (`RunOut.outOfFuel` when the fuel runs out); the `.expect(...)` panic on
    moving a missing ball is `RunOut.panicked`.
  * The f32 camera/mouse/tool fields of `Simulation` and the rendering and UI
    code do not affect the simulation claims and are outside the embedding.
-/

/-- Tile variants, in the declaration order of src/app/src/tiles.rs. -/
inductive Tile where
  | Up | Down | Left | Right | Hold | Block
  | DuplicateH | FilterR | Destroy | Empty
  | FilterU | FilterD | FilterL | DuplicateV
deriving DecidableEq, Repr

/-- `impl From<Tile> for u8` in tiles.rs. -/
def tileToU8 : Tile → Nat
  | .Up => 0 | .Down => 1 | .Left => 2 | .Right => 3
  | .Hold => 4 | .Block => 5 | .DuplicateH => 6 | .FilterR => 7
  | .Destroy => 8 | .Empty => 9 | .FilterU => 10 | .FilterD => 11
  | .FilterL => 12 | .DuplicateV => 13

/-- `impl TryFrom<u8> for Tile` in tiles.rs: valid codes are 0..=13, every
other value is an error (`none`). -/
def tileFromU8 (n : Nat) : Option Tile :=
  if n = 0 then some .Up
  else if n = 1 then some .Down
  else if n = 2 then some .Left
  else if n = 3 then some .Right
  else if n = 4 then some .Hold
  else if n = 5 then some .Block
  else if n = 6 then some .DuplicateH
  else if n = 7 then some .FilterR
  else if n = 8 then some .Destroy
  else if n = 9 then some .Empty
  else if n = 10 then some .FilterU
  else if n = 11 then some .FilterD
  else if n = 12 then some .FilterL
  else if n = 13 then some .DuplicateV
  else none

/-- World/ball/chunk position: a pair of i32 coordinates (renderer ChunkPosition
and BallPosition both wrap `[i32; 2]`). -/
abbrev WPos := Int × Int

/-- `pub const CHUNK_SIZE: usize = 32;` from src/renderer/src/chunk.rs. -/
def CHUNK_SIZE : Nat := 32

/-- A chunk flat tile-code array `data: [u8; CHUNK_SIZE * CHUNK_SIZE]`,
modelled as a function from flat index to stored code. -/
structure Chunk where
  data : Nat → Nat

/-- The flat index used by Chunk::set_tile / Chunk::get_tile:
`pos[0] + (CHUNK_SIZE - pos[1] - 1) * CHUNK_SIZE`. -/
def chunkIndex (p : Nat × Nat) : Nat :=
  p.1 + (CHUNK_SIZE - p.2 - 1) * CHUNK_SIZE

/-- `Chunk::set_tile` from chunk.rs. -/
def Chunk.setTile (c : Chunk) (p : Nat × Nat) (tile : Nat) : Chunk :=
  ⟨fun i => if i = chunkIndex p then tile else c.data i⟩

/-- `Chunk::get_tile` from chunk.rs. -/
def Chunk.getTile (c : Chunk) (p : Nat × Nat) : Nat :=
  c.data (chunkIndex p)

/-- The all-default chunk `from_fn(|_| u8::from(Tile::Down))` used by
`Simulation::new` and by the or_insert of set_tile. -/
def defaultChunk : Chunk := ⟨fun _ => tileToU8 Tile.Down⟩

/-- First-match association-list lookup (HashMap::get). -/
def lookupPos {α : Type} : List (WPos × α) → WPos → Option α
  | [], _ => none
  | e :: rest, k => if e.1 = k then some e.2 else lookupPos rest k

/-- Remove every entry with the given key (HashMap::remove under the
one-entry-per-key invariant). -/
def removeKey {α : Type} : List (WPos × α) → WPos → List (WPos × α)
  | [], _ => []
  | e :: rest, k => if e.1 = k then removeKey rest k else e :: removeKey rest k

/-- Insert/overwrite the entry for a key (HashMap::insert). -/
def insertKey {α : Type} (l : List (WPos × α)) (k : WPos) (v : α) : List (WPos × α) :=
  (k, v) :: removeKey l k

/-- Membership in a position set (HashSet::contains). -/
def memb : List WPos → WPos → Bool
  | [], _ => false
  | e :: rest, k => if e = k then true else memb rest k

/-- Idempotent insert into a position set (HashSet::insert). -/
def insertSet (l : List WPos) (k : WPos) : List WPos :=
  if memb l k then l else k :: l

/-- The simulation state: sparse chunk store and ball registry
(`chunks: HashMap<ChunkPosition, Chunk>`, `balls: HashMap<BallPosition, bool>`). -/
structure Simulation where
  chunks : List (WPos × Chunk)
  balls : List (WPos × Bool)

/-- World coordinate to chunk coordinate: `div_euclid(CHUNK_SIZE)` per axis,
as in `Simulation::set_tile` / `Simulation::get_tile` (`/` on Int is
Euclidean division, `Int.ediv`, exactly the div_euclid of Rust). -/
def worldToChunk (p : WPos) : WPos :=
  (p.1 / (CHUNK_SIZE : Int), p.2 / (CHUNK_SIZE : Int))

/-- World coordinate to local-in-chunk coordinate: `rem_euclid(CHUNK_SIZE)`
per axis, cast to unsigned, as in `Simulation::set_tile` /
`Simulation::get_tile` (`%` on Int is the Euclidean remainder, `Int.emod`,
exactly the rem_euclid of Rust). -/
def worldToLocal (p : WPos) : Nat × Nat :=
  ((p.1 % (CHUNK_SIZE : Int)).toNat, (p.2 % (CHUNK_SIZE : Int)).toNat)

/-- `Simulation::set_tile`: get-or-insert the chunk (all-default on first
write), then write the encoded tile at the local cell. -/
def Simulation.setTile (s : Simulation) (pos : WPos) (tile : Tile) : Simulation :=
  let c := (lookupPos s.chunks (worldToChunk pos)).getD defaultChunk
  { s with chunks := insertKey s.chunks (worldToChunk pos) (c.setTile (worldToLocal pos) (tileToU8 tile)) }

/-- `Simulation::get_tile`: absent chunk or undecodable stored code both fall
back to `Tile::Down` (`.and_then(|c| c.get_tile(..).try_into().ok()).unwrap_or(Tile::Down)`). -/
def Simulation.getTile (s : Simulation) (pos : WPos) : Tile :=
  match lookupPos s.chunks (worldToChunk pos) with
  | none => Tile.Down
  | some c => (tileFromU8 (c.getTile (worldToLocal pos))).getD Tile.Down

/-- `Simulation::set_ball`. -/
def Simulation.setBall (s : Simulation) (pos : WPos) (st : Bool) : Simulation :=
  { s with balls := insertKey s.balls pos st }

/-- `Simulation::new`: empty ball registry, chunk (0,0) eagerly inserted and
filled with the Down code. -/
def simNew : Simulation :=
  ⟨[(((0 : Int), (0 : Int)), defaultChunk)], []⟩

/-- The four phase directions of sim.rs. -/
inductive Direction where
  | Up | Down | Left | Right
deriving DecidableEq, Repr

/-- The neighbour cell in a direction, as computed in the sim_step loop. -/
def nextPos (dir : Direction) (p : WPos) : WPos :=
  match dir with
  | .Up => (p.1, p.2 + 1)
  | .Down => (p.1, p.2 - 1)
  | .Left => (p.1 - 1, p.2)
  | .Right => (p.1 + 1, p.2)

/-- One ball decision in the sim_step eligibility match, returning
(eligible-to-move, push-to-remove, push-to-duplicate).  Arms follow the
source match; the stale `Tile::Filter` / `Tile::Duplicate` names are read as
their codes 7 (FilterR) and 6 (DuplicateH); FilterU, FilterD, FilterL and
DuplicateV are not named by any arm and fall to the default. -/
def eligibility (tile : Tile) (dir : Direction) (st : Bool) (alreadyDuplicated : Bool) :
    Bool × Bool × Bool :=
  match tile, dir with
  | .Up, .Up | .Down, .Down | .Left, .Left | .Right, .Right => (true, false, false)
  | .FilterR, .Left => (!st, false, false)
  | .FilterR, .Right => (st, false, false)
  | .DuplicateH, .Left | .DuplicateH, .Right => (true, false, !alreadyDuplicated)
  | .Destroy, _ => (false, true, false)
  | _, _ => (false, false, false)

/-- The eligibility scan of sim_step over the ball registry, producing
(balls_to_update, balls_to_remove, balls_to_duplicate) in iteration order.
Balls in `dontMove` are skipped entirely (the `!dont_move.contains(..) && ..`
short-circuit). -/
def scanBalls (s : Simulation) (dir : Direction) (dontMove duplicated : List WPos) :
    List (WPos × Bool) → List WPos × List WPos × List (WPos × Bool)
  | [] => ([], [], [])
  | (pos, st) :: rest =>
    let acc := scanBalls s dir dontMove duplicated rest
    if memb dontMove pos then acc
    else
      let e := eligibility (s.getTile pos) dir st (memb duplicated pos)
      (if e.1 then pos :: acc.1 else acc.1,
       if e.2.1 then pos :: acc.2.1 else acc.2.1,
       if e.2.2 then (pos, st) :: acc.2.2 else acc.2.2)

/-- The full eligibility scan of one phase. -/
def scanPhase (s : Simulation) (dir : Direction) (dontMove duplicated : List WPos) :
    List WPos × List WPos × List (WPos × Bool) :=
  scanBalls s dir dontMove duplicated s.balls

/-- Apply the `balls_to_remove` list (`self.balls.remove(&pos)` for each). -/
def removeBalls (s : Simulation) (toRemove : List WPos) : Simulation :=
  { s with balls := toRemove.foldl removeKey s.balls }

/-- The phase comparator of the sim_step `sort_by`. -/
def moveCmp (dir : Direction) (a b : WPos) : Ordering :=
  match dir with
  | .Up => compare a.2 b.2
  | .Down => compare b.2 a.2
  | .Left => compare b.1 a.1
  | .Right => compare a.1 b.1

/-- Stable insertion into a sorted list: a new element goes after every
element not strictly greater than it. -/
def insertSorted (cmp : WPos → WPos → Ordering) (x : WPos) : List WPos → List WPos
  | [] => [x]
  | y :: rest =>
    if cmp x y = Ordering.lt then x :: y :: rest else y :: insertSorted cmp x rest

/-- Stable sort by a comparator (the Rust sort_by is stable). -/
def sortStable (cmp : WPos → WPos → Ordering) (l : List WPos) : List WPos :=
  l.foldl (fun acc x => insertSorted cmp x acc) []

/-- Outcome of running fuelled simulation code: a result, the `.expect(..)`
panic, or fuel exhaustion (the source loop would still be running). -/
inductive RunOut (α : Type) where
  | ok : α → RunOut α
  | panicked : RunOut α
  | outOfFuel : RunOut α

/-- The work-stack resolution loop of sim_step (`while let Some(pos) =
balls_to_update.pop()`), fuelled.  The stack head is the vector top.
Returns the mutated simulation plus the shared dont_move / duplicated sets. -/
def resolveLoop (dir : Direction) :
    Nat → Simulation → List WPos → List WPos → List WPos → List WPos →
    RunOut (Simulation × List WPos × List WPos)
  | 0, _, _, _, _, _ => .outOfFuel
  | _ + 1, s, [], dontMove, duplicated, _ => .ok (s, dontMove, duplicated)
  | fuel + 1, s, pos :: rest, dontMove, duplicated, failedHolds =>
    if (lookupPos s.balls (nextPos dir pos)).isNone then
      if s.getTile (nextPos dir pos) ≠ Tile.Block then
        match lookupPos s.balls pos with
        | none => .panicked
        | some st =>
          resolveLoop dir fuel
            { s with balls := insertKey (removeKey s.balls pos) (nextPos dir pos) st }
            rest
            (insertSet dontMove (nextPos dir pos))
            (if Simulation.getTile
                { s with balls := insertKey (removeKey s.balls pos) (nextPos dir pos) st }
                pos = Tile.DuplicateH
             then insertSet duplicated pos else duplicated)
            failedHolds
      else
        resolveLoop dir fuel s rest dontMove duplicated failedHolds
    else if s.getTile (nextPos dir pos) = Tile.Hold ∧ memb failedHolds (nextPos dir pos) = false then
      resolveLoop dir fuel s (nextPos dir pos :: pos :: rest) dontMove duplicated failedHolds
    else if s.getTile pos = Tile.Hold then
      resolveLoop dir fuel s rest dontMove duplicated (insertSet failedHolds pos)
    else
      resolveLoop dir fuel s rest dontMove duplicated failedHolds

/-- One phase, `Simulation::sim_step`: scan, apply removals, sort and reverse
into a stack (Vec::pop takes the sorted vector end first), run the
resolution loop, then apply the deferred duplications. -/
def simStep (s : Simulation) (dir : Direction) (dontMove duplicated : List WPos) (fuel : Nat) :
    RunOut (Simulation × List WPos × List WPos) :=
  let scan := scanPhase s dir dontMove duplicated
  match resolveLoop dir fuel (removeBalls s scan.2.1)
      ((sortStable (moveCmp dir) scan.1).reverse) dontMove duplicated [] with
  | .ok r =>
    .ok ({ r.1 with balls := scan.2.2.foldl (fun bs e => insertKey bs e.1 e.2) r.1.balls },
         r.2.1, r.2.2)
  | .panicked => .panicked
  | .outOfFuel => .outOfFuel

/-- A full tick: the "full update" button fold over
[Up, Right, Left, Down] with one shared dont_move / duplicated pair. -/
def fullTick (s : Simulation) (fuel : Nat) : RunOut (Simulation × List WPos × List WPos) :=
  match simStep s .Up [] [] fuel with
  | .ok r1 =>
    match simStep r1.1 .Right r1.2.1 r1.2.2 fuel with
    | .ok r2 =>
      match simStep r2.1 .Left r2.2.1 r2.2.2 fuel with
      | .ok r3 => simStep r3.1 .Down r3.2.1 r3.2.2 fuel
      | .panicked => .panicked
      | .outOfFuel => .outOfFuel
    | .panicked => .panicked
    | .outOfFuel => .outOfFuel
  | .panicked => .panicked
  | .outOfFuel => .outOfFuel

/-- Two consecutive full ticks (each tick starts fresh shared sets). -/
def tickTwice (s : Simulation) (fuel : Nat) : RunOut (Simulation × List WPos × List WPos) :=
  match fullTick s fuel with
  | .ok r => fullTick r.1 fuel
  | .panicked => .panicked
  | .outOfFuel => .outOfFuel

/-- The ball registry of a run outcome. -/
def ballsOf : RunOut (Simulation × List WPos × List WPos) → Option (List (WPos × Bool))
  | .ok r => some r.1.balls
  | _ => none

/-- The ball (if any) at one position of a run outcome. -/
def ballAt (r : RunOut (Simulation × List WPos × List WPos)) (p : WPos) :
    Option (Option Bool) :=
  (ballsOf r).map (fun bs => lookupPos bs p)

/-- The shared dont_move ("settled") set of a run outcome. -/
def settledOf : RunOut (Simulation × List WPos × List WPos) → Option (List WPos)
  | .ok r => some r.2.1
  | _ => none

/-- C1 world: tiles (0,0)=Right, (1,0)=Hold, (2,0)=Block, balls at (0,0) and
(1,0).  In the Right phase the ball at (0,0) is blocked by the Hold occupant,
which itself can never move (Block ahead) and is never marked failed. -/
def c1World : Simulation :=
  ((((simNew.setTile (0, 0) .Right).setTile (1, 0) .Hold).setTile (2, 0) .Block).setBall
      (0, 0) false).setBall (1, 0) false

/-- C2 world: ball at (2,-1) on an Up tile below a Hold tile at (2,0); ball at
(1,0) on a Right tile pointing at the Hold tile; (3,0) is Empty. -/
def c2World : Simulation :=
  (((((simNew.setTile (2, -1) .Up).setTile (1, 0) .Right).setTile (2, 0) .Hold).setTile
        (3, 0) .Empty).setBall (2, -1) true).setBall (1, 0) false

/-- C3 world: ball at (0,0) on an Up tile below a Destroy tile at (0,1). -/
def c3World : Simulation :=
  ((simNew.setTile (0, 0) .Up).setTile (0, 1) .Destroy).setBall (0, 0) false

/-- C9 world: tiles (0,0)=Right and (1,0)=Empty, one ball at (0,0), state false. -/
def c9World : Simulation :=
  ((simNew.setTile (0, 0) .Right).setTile (1, 0) .Empty).setBall (0, 0) false

/-- A world with a single explicitly placed tile at (0,0) and one ball on it. -/
def oneTileWorld (t : Tile) (b : Bool) : Simulation :=
  (simNew.setTile (0, 0) t).setBall (0, 0) b

/-- A direct simulation state whose chunk (0,0) stores the invalid tile code 14
everywhere (no code path of the source ever writes such a code; the state
exhibits what get_tile does when it reads one). -/
def invalidCodeSim : Simulation :=
  ⟨[(((0 : Int), (0 : Int)), ⟨fun _ => 14⟩)], []⟩

/-- A second invalid-code state (code 99), used for the C10 witness. -/
def invalidCodeSim99 : Simulation :=
  ⟨[(((0 : Int), (0 : Int)), ⟨fun _ => 99⟩)], []⟩

/-- A ball sitting directly on a Destroy tile, not settled. -/
def destroyWorld : Simulation :=
  (simNew.setTile (0, 0) .Destroy).setBall (0, 0) true

/-- C7: For every world coordinate pair, the chunk coordinate (Euclidean
division by 32) and local coordinate (Euclidean remainder) used by set_tile
and get_tile satisfy chunk * 32 + local = world and 0 ≤ local < 32 on each
axis, also for negative coordinates (0 ≤ local holds by the Nat codomain of
worldToLocal). -/
theorem c7_coordinate_bijection :
    ∀ p : WPos,
      (worldToChunk p).1 * (CHUNK_SIZE : Int) + ((worldToLocal p).1 : Int) = p.1 ∧
      (worldToChunk p).2 * (CHUNK_SIZE : Int) + ((worldToLocal p).2 : Int) = p.2 ∧
      (worldToLocal p).1 < CHUNK_SIZE ∧ (worldToLocal p).2 < CHUNK_SIZE := by
  intro p
  unfold worldToChunk worldToLocal CHUNK_SIZE
  refine ⟨?_, ?_, ?_, ?_⟩ <;> simp only [Nat.cast_ofNat] <;> omega

/-- C8: get_tile at a world position whose chunk is absent returns the default
tile Down; being a pure function of the state, the read leaves the chunk
store untouched (no chunk is materialized). -/
theorem c8_get_tile_absent_chunk_default (s : Simulation) (p : WPos)
    (h : lookupPos s.chunks (worldToChunk p) = none) :
    s.getTile p = Tile.Down := by
  simp [Simulation.getTile, h]

/-- Witness for C8 at the empty chunk store and position (5,7). -/
theorem c8_absent_chunk_witness :
    lookupPos (Simulation.mk [] []).chunks (worldToChunk (5, 7)) = none ∧
    Simulation.getTile (Simulation.mk [] []) (5, 7) = Tile.Down :=
  ⟨rfl, c8_get_tile_absent_chunk_default (Simulation.mk [] []) (5, 7) rfl⟩

/-- C6 counterexample: a stored chunk holding the out-of-range code 14 makes
get_tile return the default tile Down — the invalid code is silently replaced
by a default, not treated as a fatal error. -/
theorem c6_get_tile_silently_defaults :
    Chunk.getTile ⟨fun _ => 14⟩ (worldToLocal (0, 0)) = 14 ∧
    tileFromU8 14 = none ∧
    Simulation.getTile invalidCodeSim (0, 0) = Tile.Down := by
  refine ⟨rfl, rfl, ?_⟩
  decide

/-- C6 amended: decoding an out-of-range code (any value ≥ 14) fails with an
error, but get_tile on a stored undecodable code silently substitutes the
default tile Down instead of failing. -/
theorem c6_decode_fails_but_get_tile_defaults :
    (∀ n : Nat, 14 ≤ n → tileFromU8 n = none) ∧
    (∀ (s : Simulation) (p : WPos) (c : Chunk),
      lookupPos s.chunks (worldToChunk p) = some c →
      tileFromU8 (c.getTile (worldToLocal p)) = none →
      s.getTile p = Tile.Down) := by
  constructor
  · intro n h
    obtain ⟨k, rfl⟩ := Nat.exists_eq_add_of_le' h
    rfl
  · intro s p c h1 h2
    simp [Simulation.getTile, h1, h2]

/-- Witness for C6 at code 14 and the concrete invalid-code state. -/
theorem c6_decode_witness :
    tileFromU8 14 = none ∧ Simulation.getTile invalidCodeSim (0, 0) = Tile.Down :=
  ⟨c6_decode_fails_but_get_tile_defaults.1 14 (by decide),
   c6_decode_fails_but_get_tile_defaults.2 invalidCodeSim (0, 0) ⟨fun _ => 14⟩ rfl rfl⟩

/-- C9 counterexample: in the world with tiles (0,0)=Right and (1,0)=Empty and
one ball starting at (0,0) with state false, the second full tick does NOT
bring the token to (2,0): it is still at (1,0), because an Empty tile is not
eligible in any phase. -/
theorem c9_second_tick_counterexample :
    ballAt (tickTwice c9World 10) (2, 0) = some none ∧
    ballAt (tickTwice c9World 10) (1, 0) = some (some false) := by
  decide

/-- C9 amended: the first full tick moves the token from (0,0) to (1,0) with
state false unchanged; the second full tick leaves it at (1,0). -/
theorem c9_two_ticks_amended :
    ballAt (fullTick c9World 10) (1, 0) = some (some false) ∧
    ballAt (fullTick c9World 10) (0, 0) = some none ∧
    ballAt (tickTwice c9World 10) (1, 0) = some (some false) ∧
    ballAt (tickTwice c9World 10) (2, 0) = some none := by
  decide

/-- C2 counterexample: in c2World the Up phase moves the true-state token onto
the Hold tile at (2,0) and records (2,0) in the shared settled set, yet the
full tick ends with that token at (3,0) — the Right phase Hold-retry path
moved the already-settled token again (and the false-state token took (2,0)). -/
theorem c2_settled_token_moved_again :
    settledOf (simStep c2World .Up [] [] 10) = some [(2, 0)] ∧
    ballAt (simStep c2World .Up [] [] 10) (2, 0) = some (some true) ∧
    ballAt (fullTick c2World 10) (3, 0) = some (some true) ∧
    ballAt (fullTick c2World 10) (2, 0) = some (some false) := by
  decide

/-- C3 counterexample: in c3World the token moves onto the Destroy tile at
(0,1) during the Up phase and is then skipped (as settled) by the Right, Left
and Down phases, so it is still alive at (0,1) at the end of the full tick. -/
theorem c3_settled_token_survives_destroy :
    Simulation.getTile c3World (0, 1) = Tile.Destroy ∧
    ballAt (fullTick c3World 10) (0, 1) = some (some false) := by
  decide

/-- C4 at the failing inputs: a token of either state on a FilterU, FilterD or
FilterL tile is never eligible in any phase — a full tick leaves the registry
unchanged, contradicting the claim that each filter variant passes tokens in
its declared orientation (the sim_step match only names the stale single
filter, code 7). -/
theorem c4_filter_variants_never_eligible :
    ∀ b : Bool,
      ballsOf (fullTick (oneTileWorld .FilterU b) 10) = some [((0, 0), b)] ∧
      ballsOf (fullTick (oneTileWorld .FilterD b) 10) = some [((0, 0), b)] ∧
      ballsOf (fullTick (oneTileWorld .FilterL b) 10) = some [((0, 0), b)] := by
  intro b
  cases b <;> exact ⟨by decide, by decide, by decide⟩

/-- C5 at the failing input: a token of either state on a DuplicateV tile is
never eligible and never duplicated — the full tick produces no new token and
does not move the original, contradicting the one-duplicate-per-tick claim
(the sim_step match only names the stale horizontal duplicator, code 6). -/
theorem c5_duplicate_v_never_fires :
    ∀ b : Bool,
      ballsOf (fullTick (oneTileWorld .DuplicateV b) 10) = some [((0, 0), b)] := by
  intro b
  cases b <;> decide

theorem scanBalls_update_not_in_dontMove (s : Simulation) (dir : Direction)
    (dm dup : List WPos) (l : List (WPos × Bool)) (p : WPos)
    (h : p ∈ (scanBalls s dir dm dup l).1) : memb dm p = false := by
  induction l with
  | nil => simp [scanBalls] at h
  | cons e rest ih =>
    obtain ⟨pos, st⟩ := e
    simp only [scanBalls] at h
    by_cases hm : memb dm pos = true
    · rw [if_pos hm] at h
      exact ih h
    · rw [if_neg hm] at h
      by_cases he : (eligibility (s.getTile pos) dir st (memb dup pos)).1 = true
      · rw [if_pos he] at h
        rcases List.mem_cons.mp h with h1 | h2
        · subst h1
          exact Bool.not_eq_true _ ▸ hm
        · exact ih h2
      · rw [if_neg he] at h
        exact ih h

/-- C2 amended: the settled (dont_move) exemption is enforced by the
eligibility scan — no position in the dont_move set is ever collected into a
phase working list.  (The Hold-retry push inside the resolution loop does not
consult dont_move, which is what the counterexample exploits.) -/
theorem c2_scan_exempts_settled :
    ∀ (s : Simulation) (dir : Direction) (dontMove duplicated : List WPos) (p : WPos),
      p ∈ (scanPhase s dir dontMove duplicated).1 → memb dontMove p = false := by
  intro s dir dm dup p h
  exact scanBalls_update_not_in_dontMove s dir dm dup s.balls p h

/-- Witness for C2 amended at the c2World Up phase scan. -/
theorem c2_scan_exempts_settled_witness :
    ((2 : Int), (-1 : Int)) ∈ (scanPhase c2World .Up [] []).1 ∧
    memb [] ((2 : Int), (-1 : Int)) = false :=
  ⟨by decide, c2_scan_exempts_settled c2World .Up [] [] (2, -1) (by decide)⟩

theorem eligibility_destroy (dir : Direction) (st x : Bool) :
    eligibility Tile.Destroy dir st x = (false, true, false) := by
  cases dir <;> rfl

theorem scanBalls_destroy_not_in_update (s : Simulation) (dir : Direction)
    (dm dup : List WPos) (l : List (WPos × Bool)) (p : WPos)
    (ht : s.getTile p = Tile.Destroy) :
    p ∉ (scanBalls s dir dm dup l).1 := by
  induction l with
  | nil => simp [scanBalls]
  | cons e rest ih =>
    obtain ⟨pos, st⟩ := e
    simp only [scanBalls]
    by_cases hm : memb dm pos = true
    · rw [if_pos hm]; exact ih
    · rw [if_neg hm]
      by_cases hpos : pos = p
      · subst hpos
        rw [ht, eligibility_destroy]
        exact ih
      · by_cases he : (eligibility (s.getTile pos) dir st (memb dup pos)).1 = true
        · rw [if_pos he]
          intro hmem
          rcases List.mem_cons.mp hmem with h1 | h2
          · exact hpos h1.symm
          · exact ih h2
        · rw [if_neg he]; exact ih

theorem scanBalls_destroy_in_remove (s : Simulation) (dir : Direction)
    (dm dup : List WPos) (l : List (WPos × Bool)) (p : WPos)
    (hl : (lookupPos l p).isSome = true)
    (ht : s.getTile p = Tile.Destroy)
    (hm : memb dm p = false) :
    p ∈ (scanBalls s dir dm dup l).2.1 := by
  induction l with
  | nil => simp [lookupPos] at hl
  | cons e rest ih =>
    obtain ⟨pos, st⟩ := e
    simp only [scanBalls]
    by_cases hpos : pos = p
    · subst hpos
      rw [if_neg (by rw [hm]; exact Bool.false_ne_true), ht, eligibility_destroy]
      exact List.mem_cons_self _ _
    · have hl2 : (lookupPos rest p).isSome = true := by
        simpa [lookupPos, hpos] using hl
      by_cases hm2 : memb dm pos = true
      · rw [if_pos hm2]; exact ih hl2
      · rw [if_neg hm2]
        by_cases he : (eligibility (s.getTile pos) dir st (memb dup pos)).2.1 = true
        · rw [if_pos he]
          exact List.mem_cons_of_mem _ (ih hl2)
        · rw [if_neg he]; exact ih hl2

theorem lookupPos_removeKey_self {α : Type} (l : List (WPos × α)) (k : WPos) :
    lookupPos (removeKey l k) k = none := by
  induction l with
  | nil => rfl
  | cons e rest ih =>
    simp only [removeKey]
    by_cases h : e.1 = k
    · rw [if_pos h]; exact ih
    · rw [if_neg h]; simp only [lookupPos, if_neg h]; exact ih

theorem lookupPos_removeKey_none {α : Type} (l : List (WPos × α)) (k q : WPos)
    (h : lookupPos l q = none) : lookupPos (removeKey l k) q = none := by
  induction l with
  | nil => rfl
  | cons e rest ih =>
    simp only [lookupPos] at h
    by_cases he : e.1 = q
    · rw [if_pos he] at h; exact absurd h (by simp)
    · rw [if_neg he] at h
      simp only [removeKey]
      by_cases hk : e.1 = k
      · rw [if_pos hk]; exact ih h
      · rw [if_neg hk]; simp only [lookupPos, if_neg he]; exact ih h

theorem lookupPos_foldl_removeKey_none (rm : List WPos) (bs : List (WPos × Bool)) (p : WPos)
    (h : lookupPos bs p = none) : lookupPos (rm.foldl removeKey bs) p = none := by
  induction rm generalizing bs with
  | nil => exact h
  | cons r rest ih => exact ih _ (lookupPos_removeKey_none bs r p h)

theorem lookupPos_foldl_removeKey_mem (rm : List WPos) (bs : List (WPos × Bool)) (p : WPos)
    (h : p ∈ rm) : lookupPos (rm.foldl removeKey bs) p = none := by
  induction rm generalizing bs with
  | nil => simp at h
  | cons r rest ih =>
    rcases List.mem_cons.mp h with h1 | h2
    · subst h1
      exact lookupPos_foldl_removeKey_none rest _ p (lookupPos_removeKey_self bs p)
    · exact ih _ h2

/-- C3 amended: a token sitting on a Destroy tile that is NOT in the settled
(dont_move) set when a phase runs is removed by that phase before the
resolution loop — removed immediately, never queued for movement — and this
holds for every phase direction.  (A token that moved onto the Destroy tile
earlier in the same tick is in dont_move and is skipped; see the
counterexample.) -/
theorem c3_destroy_removes_unsettled :
    ∀ (s : Simulation) (dir : Direction) (dontMove duplicated : List WPos) (p : WPos),
      (lookupPos s.balls p).isSome = true →
      s.getTile p = Tile.Destroy →
      memb dontMove p = false →
      p ∉ (scanPhase s dir dontMove duplicated).1 ∧
      lookupPos (removeBalls s (scanPhase s dir dontMove duplicated).2.1).balls p = none := by
  intro s dir dm dup p hl ht hm
  refine ⟨scanBalls_destroy_not_in_update s dir dm dup s.balls p ht, ?_⟩
  have hr := scanBalls_destroy_in_remove s dir dm dup s.balls p hl ht hm
  exact lookupPos_foldl_removeKey_mem _ s.balls p hr

/-- Witness for C3 amended: a true-state ball directly on a Destroy tile with
empty shared sets, Right phase. -/
theorem c3_destroy_removes_unsettled_witness :
    ((0 : Int), (0 : Int)) ∉ (scanPhase destroyWorld .Right [] []).1 ∧
    lookupPos (removeBalls destroyWorld (scanPhase destroyWorld .Right [] []).2.1).balls
      (0, 0) = none :=
  c3_destroy_removes_unsettled destroyWorld .Right [] [] (0, 0) (by decide) (by decide)
    (by decide)

theorem c1_resolve_cycle (f : Nat) :
    resolveLoop .Right f c1World [(0, 0)] [] [] [] = RunOut.outOfFuel ∧
    resolveLoop .Right f c1World [(1, 0), (0, 0)] [] [] [] = RunOut.outOfFuel := by
  induction f with
  | zero => exact ⟨rfl, rfl⟩
  | succ g ih =>
    constructor
    · have h : resolveLoop .Right (g + 1) c1World [(0, 0)] [] [] [] =
          resolveLoop .Right g c1World [(1, 0), (0, 0)] [] [] [] := rfl
      rw [h]
      exact ih.2
    · have h : resolveLoop .Right (g + 1) c1World [(1, 0), (0, 0)] [] [] [] =
          resolveLoop .Right g c1World [(0, 0)] [] [] [] := rfl
      rw [h]
      exact ih.1

theorem c1_right_phase (f : Nat) :
    simStep c1World .Right [] [] f = RunOut.outOfFuel := by
  have e1 : removeBalls c1World (scanPhase c1World .Right [] []).2.1 = c1World := rfl
  have e2 : (sortStable (moveCmp .Right) (scanPhase c1World .Right [] []).1).reverse
      = [((0 : Int), (0 : Int))] := rfl
  simp only [simStep, e1, e2, (c1_resolve_cycle f).1]

/-- C1: the four-phase tick does NOT always terminate.  In c1World (tiles
(0,0)=Right, (1,0)=Hold, (2,0)=Block, balls at (0,0) and (1,0)) the Right
phase resolution loop cycles forever: the ball at (0,0) is blocked by the
occupied Hold cell (1,0), whose occupant can never move (Block ahead) but is
also never marked as a failed hold, so the pair is re-pushed endlessly.  For
every fuel bound the tick is still running. -/
theorem c1_full_tick_diverges :
    ∀ f : Nat, fullTick c1World f = RunOut.outOfFuel := by
  intro f
  match f with
  | 0 => rfl
  | g + 1 =>
    have hup : simStep c1World .Up [] [] (g + 1) = RunOut.ok (c1World, [], []) := rfl
    simp only [fullTick, hup, c1_right_phase (g + 1)]

theorem noChunkGetTile (bs : List (WPos × Bool)) (q : WPos) :
    Simulation.getTile ⟨[], bs⟩ q = Tile.Down := rfl

theorem resolveLoop_empty_stack (dir : Direction) (g : Nat) (s : Simulation)
    (dm dup fh : List WPos) :
    resolveLoop dir (g + 1) s [] dm dup fh = RunOut.ok (s, dm, dup) := rfl

theorem c10_down_step (x y : Int) (b : Bool) (g : Nat) :
    resolveLoop .Down (g + 1) ⟨[], [((x, y), b)]⟩ [(x, y)] [] [] [] =
      resolveLoop .Down g ⟨[], [((x, y - 1), b)]⟩ [] [(x, y - 1)] [] [] := by
  have hne : ¬(((x, y) : WPos) = (x, y - 1)) := by
    simp only [Prod.mk.injEq]
    omega
  have hlook : lookupPos [((x, y), b)] ((x : Int), y - 1) = none := by
    simp only [lookupPos, if_neg hne]
  have hlookp : lookupPos [((x, y), b)] ((x : Int), (y : Int)) = some b := by
    simp [lookupPos]
  have hrem : removeKey [((x, y), b)] ((x : Int), (y : Int)) = ([] : List (WPos × Bool)) := by
    simp [removeKey]
  simp [resolveLoop, nextPos, hlook, hlookp, hrem, insertKey, insertSet, memb,
    noChunkGetTile, removeKey]

theorem c10_up_phase (x y : Int) (b : Bool) (g : Nat) :
    simStep ⟨[], [((x, y), b)]⟩ .Up [] [] (g + 1) =
      RunOut.ok (⟨[], [((x, y), b)]⟩, [], []) := rfl

theorem c10_right_phase (x y : Int) (b : Bool) (g : Nat) :
    simStep ⟨[], [((x, y), b)]⟩ .Right [] [] (g + 1) =
      RunOut.ok (⟨[], [((x, y), b)]⟩, [], []) := rfl

theorem c10_left_phase (x y : Int) (b : Bool) (g : Nat) :
    simStep ⟨[], [((x, y), b)]⟩ .Left [] [] (g + 1) =
      RunOut.ok (⟨[], [((x, y), b)]⟩, [], []) := rfl

theorem c10_down_phase (x y : Int) (b : Bool) (g : Nat) :
    simStep ⟨[], [((x, y), b)]⟩ .Down [] [] (g + 1 + 1) =
      RunOut.ok (⟨[], [((x, y - 1), b)]⟩, [(x, y - 1)], []) := by
  have e1 : removeBalls ⟨[], [((x, y), b)]⟩
      (scanPhase ⟨[], [((x, y), b)]⟩ .Down [] []).2.1 = ⟨[], [((x, y), b)]⟩ := rfl
  have e2 : (sortStable (moveCmp .Down) (scanPhase ⟨[], [((x, y), b)]⟩ .Down [] []).1).reverse
      = [((x : Int), (y : Int))] := rfl
  have e3 : (scanPhase ⟨[], [((x, y), b)]⟩ .Down [] []).2.2 = [] := rfl
  simp only [simStep, e1, e2, e3, c10_down_step x y b (g + 1),
    resolveLoop_empty_stack, List.foldl_nil]

theorem c10_move (x y : Int) (b : Bool) (g : Nat) :
    ballsOf (fullTick ⟨[], [((x, y), b)]⟩ (g + 1 + 1)) = some [((x, y - 1), b)] := by
  simp only [fullTick, c10_up_phase x y b (g + 1), c10_right_phase x y b (g + 1),
    c10_left_phase x y b (g + 1), c10_down_phase x y b g, ballsOf]

theorem lookupPos_insertKey_self {α : Type} (l : List (WPos × α)) (k : WPos) (v : α) :
    lookupPos (insertKey l k v) k = some v := by
  simp [insertKey, lookupPos]

/-- C10: the default tile is Down (code 1): get_tile returns Down for a
position in an absent chunk and for an undecodable stored code; set_tile on
an absent chunk creates a chunk holding the Down code everywhere except the
written cell; the constructor pre-creates chunk (0,0) filled with the Down
code; and a token on a never-written cell (empty chunk store) ends a full
tick exactly one cell lower, for any position, state and sufficient fuel. -/
theorem c10_default_tile_down :
    tileToU8 Tile.Down = 1 ∧
    (∀ (s : Simulation) (p : WPos), lookupPos s.chunks (worldToChunk p) = none →
      s.getTile p = Tile.Down) ∧
    (∀ (s : Simulation) (p : WPos) (c : Chunk),
      lookupPos s.chunks (worldToChunk p) = some c →
      tileFromU8 (c.getTile (worldToLocal p)) = none →
      s.getTile p = Tile.Down) ∧
    (lookupPos simNew.chunks (0, 0) = some defaultChunk ∧
      ∀ i : Nat, defaultChunk.data i = tileToU8 Tile.Down) ∧
    (∀ (s : Simulation) (p : WPos) (t : Tile),
      lookupPos s.chunks (worldToChunk p) = none →
      ∃ c : Chunk,
        lookupPos ((s.setTile p t)).chunks (worldToChunk p) = some c ∧
        c.data (chunkIndex (worldToLocal p)) = tileToU8 t ∧
        ∀ i : Nat, i ≠ chunkIndex (worldToLocal p) → c.data i = tileToU8 Tile.Down) ∧
    (∀ (x y : Int) (b : Bool) (g : Nat),
      ballsOf (fullTick ⟨[], [((x, y), b)]⟩ (g + 1 + 1)) = some [((x, y - 1), b)]) := by
  refine ⟨rfl, ?_, ?_, ⟨rfl, fun i => rfl⟩, ?_, c10_move⟩
  · intro s p h
    simp [Simulation.getTile, h]
  · intro s p c h1 h2
    simp [Simulation.getTile, h1, h2]
  · intro s p t h
    refine ⟨defaultChunk.setTile (worldToLocal p) (tileToU8 t), ?_, ?_, ?_⟩
    · simp only [Simulation.setTile, h, Option.getD_none]
      exact lookupPos_insertKey_self _ _ _
    · simp [Chunk.setTile]
    · intro i hi
      simp [Chunk.setTile, hi, defaultChunk]

/-- Witness for C10 at concrete inputs: the empty store at (7,9); the
invalid-code-99 store at (0,0); writing Block at (3,4) into the empty store;
and one tick of a ball at (5,7) over the empty store. -/
theorem c10_default_tile_down_witness :
    Simulation.getTile (Simulation.mk [] []) (7, 9) = Tile.Down ∧
    Simulation.getTile invalidCodeSim99 (0, 0) = Tile.Down ∧
    (∃ c : Chunk,
      lookupPos ((Simulation.mk [] []).setTile (3, 4) Tile.Block).chunks
        (worldToChunk (3, 4)) = some c ∧
      c.data (chunkIndex (worldToLocal (3, 4))) = tileToU8 Tile.Block ∧
      ∀ i : Nat, i ≠ chunkIndex (worldToLocal (3, 4)) → c.data i = tileToU8 Tile.Down) ∧
    ballsOf (fullTick ⟨[], [((5, 7), true)]⟩ (8 + 1 + 1)) = some [((5, 7 - 1), true)] :=
  ⟨c10_default_tile_down.2.1 (Simulation.mk [] []) (7, 9) rfl,
   c10_default_tile_down.2.2.1 invalidCodeSim99 (0, 0) ⟨fun _ => 99⟩ rfl rfl,
   c10_default_tile_down.2.2.2.2.1 (Simulation.mk [] []) (3, 4) Tile.Block rfl,
   c10_default_tile_down.2.2.2.2.2 5 7 true 8⟩
